import Mathlib

/-!
Verification development for the `@aegisjsproject/idb` coordination layer
(`src/idb.js`): a shallow embedding of the request-to-promise bridge
(`handleIDBRequest`), the transaction helpers (`commitTransaction`,
`abortTransaction`), the atomic batch writer (`putAllItems`), the single-item
helpers (`putItem`, `getItem`) and the pull cursor (`iterateObjectStore`),
together with theorems about their observable behaviour.

Event-driven parts are embedded as explicit state machines: the state records
the promise settlement, which event listeners are still attached (listeners
registered with an `AbortSignal` are detached when that signal aborts), and
the state of the underlying transaction; a step function processes one
delivered event exactly as the corresponding JavaScript handler does.
-/

set_option linter.unusedVariables false

deriving instance DecidableEq for Except

namespace AegisIdb

/-- JavaScript values, as far as the library observes them: `undefined`,
`null`, booleans, numbers, strings, and error objects (identified by their
name).  Promise values that are arrays are modelled as `List JSVal` at the
type of the promise instead. -/
inductive JSVal where
  | undef : JSVal
  | null : JSVal
  | boolean : Bool → JSVal
  | num : Int → JSVal
  | str : String → JSVal
  | exn : String → JSVal
deriving DecidableEq, Repr

/-- A value is nullish when it is `undefined` or `null`. -/
def nullish : JSVal → Bool
  | JSVal.undef => true
  | JSVal.null => true
  | _ => false

/-- The nullish-coalescing operator `a ?? b`. -/
def nullishCoalesce (a b : JSVal) : JSVal := if nullish a then b else a

/-- An `AbortSignal` as observed at a single instant: its aborted flag and
its abort reason. -/
structure Signal where
  aborted : Bool
  reason : JSVal
deriving DecidableEq, Repr

/-- The test `signal instanceof AbortSignal && signal.aborted` for an optional signal. -/
def sigAborted : Option Signal → Bool
  | some s => s.aborted
  | none => false

/-- The reason `signal.reason` of an optional signal (`undefined` when absent). -/
def sigReason : Option Signal → JSVal
  | some s => s.reason
  | none => JSVal.undef

/-- The mode `IDBTransaction.mode` of a transaction. -/
inductive TxMode where
  | readonly | readwrite | versionchange
deriving DecidableEq, Repr

/-- Transaction lifecycle states: `active` (not yet finished), and the two
terminal states `committed` and `aborted`. -/
inductive TxState where
  | active | committed | aborted
deriving DecidableEq, Repr

/-- An `IDBTransaction` handle: its mode and its current state. -/
structure Txn where
  mode : TxMode
  state : TxState
deriving DecidableEq, Repr

/-- The engine primitive `IDBTransaction.commit()`: per the Indexed DB
specification it throws an `InvalidStateError` `DOMException` when the
transaction is not in the active state, and otherwise commits it. -/
def idbCommit (t : Txn) : Except JSVal Txn :=
  if t.state = TxState.active then Except.ok { t with state := TxState.committed }
  else Except.error (JSVal.exn "InvalidStateError")

/-- The engine primitive `IDBTransaction.abort()`: per the Indexed DB
specification it throws an `InvalidStateError` `DOMException` when the
transaction has already finished (committed or aborted), and otherwise
aborts it. -/
def idbAbort (t : Txn) : Except JSVal Txn :=
  if t.state = TxState.active then Except.ok { t with state := TxState.aborted }
  else Except.error (JSVal.exn "InvalidStateError")

/-- The argument accepted by `commitTransaction` / `abortTransaction`
(src/idb.js lines 27-36 and 90-99): an `IDBRequest` (whose `transaction`
property may be null), an `IDBTransaction`, or any other value (`null`,
an abort reason, ...). -/
inductive TxArg where
  | request : Option Txn → TxArg
  | txn : Txn → TxArg
  | other : JSVal → TxArg
deriving DecidableEq, Repr

/-- The `IDBTransaction` branch of `commitTransaction` (src/idb.js
lines 30-35): for a transaction whose mode is not read-only it calls the
engine `commit()` and returns `true`; otherwise it returns `false` without
touching the engine. -/
def commitTransactionTxn (t : Txn) : Except JSVal (Bool × Option Txn) :=
  if t.mode ≠ TxMode.readonly then
    (idbCommit t).map (fun t2 => (true, some t2))
  else Except.ok (false, some t)

/-- src/idb.js lines 27-36: recurses through an `IDBRequest` to its
transaction (the recursive call is unfolded here: a null transaction falls
through to the final `return false`); a transaction is handled by
`commitTransactionTxn`; any other value returns `false`.  The result
carries the returned boolean and the (possibly updated) transaction; a
thrown engine exception propagates. -/
def commitTransaction : TxArg → Except JSVal (Bool × Option Txn)
  | TxArg.request (some t) => commitTransactionTxn t
  | TxArg.request none => Except.ok (false, none)
  | TxArg.txn t => commitTransactionTxn t
  | TxArg.other _ => Except.ok (false, none)

/-- The `IDBTransaction` branch of `abortTransaction` (src/idb.js
lines 93-98), with the engine `abort()` in place of `commit()`. -/
def abortTransactionTxn (t : Txn) : Except JSVal (Bool × Option Txn) :=
  if t.mode ≠ TxMode.readonly then
    (idbAbort t).map (fun t2 => (true, some t2))
  else Except.ok (false, some t)

/-- src/idb.js lines 90-99: identical structure to `commitTransaction`, with
the engine `abort()` in place of `commit()`. -/
def abortTransaction : TxArg → Except JSVal (Bool × Option Txn)
  | TxArg.request (some t) => abortTransactionTxn t
  | TxArg.request none => Except.ok (false, none)
  | TxArg.txn t => abortTransactionTxn t
  | TxArg.other _ => Except.ok (false, none)

/-- The engine read `IDBObjectStore.get(key)`: the request result is the stored value, or
`undefined` when no row matches the key.  A store is modelled as an
association list from keys to stored values. -/
def storeGet (rows : List (JSVal × JSVal)) (key : JSVal) : JSVal :=
  match rows.find? (fun p => decide (p.1 = key)) with
  | some p => p.2
  | none => JSVal.undef

/-- A promise's settlement: fulfilled with a value, or rejected with a
reason.  Promises settle at most once; later settlement attempts are
ignored. -/
inductive Settled (α : Type) where
  | resolved : α → Settled α
  | rejectedWith : JSVal → Settled α
deriving DecidableEq, Repr

/-- Calling `resolve` / `reject` on a possibly already settled promise: the first
settlement wins. -/
def settleOnce {α : Type} (p : Option (Settled α)) (s : Settled α) : Option (Settled α) :=
  some (p.getD s)

/-- The observable state of one `handleIDBRequest` call after its
synchronous part has subscribed to the request (src/idb.js lines 119-142):
the promise settlement, which listeners are still attached, the state of the
passed signal and of the internal controller, and the request's
transaction.  The success and error listeners are registered with the
composed signal `AbortSignal.any([passedSignal, controller.signal])`, so
they are detached as soon as either the passed signal or the controller
aborts; the abort listener on the passed signal is registered with
`controller.signal`. -/
structure BridgeState where
  promise : Option (Settled JSVal)
  hasSignal : Bool
  sigIsAborted : Bool
  sListener : Bool
  eListener : Bool
  aListener : Bool
  controllerAborted : Bool
  tx : Option Txn
deriving DecidableEq, Repr

/-- The subscribed state built by the `else` branch of `handleIDBRequest`
(src/idb.js lines 119-142) for a pending request whose transaction is `tx`,
given the optional (not yet aborted) passed signal. -/
def bridgeSubscribe (tx : Option Txn) (signal : Option Signal) : BridgeState :=
  { promise := none
    hasSignal := signal.isSome
    sigIsAborted := false
    sListener := true
    eListener := true
    aListener := signal.isSome
    controllerAborted := false
    tx := tx }

/-- Result of the synchronous part of `handleIDBRequest`: either the promise
was settled before any subscription took place, or listeners were attached
and the call now waits for events. -/
inductive BridgeInit where
  | immediate : Settled JSVal → BridgeInit
  | subscribed : BridgeState → BridgeInit
deriving DecidableEq, Repr

/-- src/idb.js lines 111-151 (`handleIDBRequest`), synchronous part.  The
code checks, in this order: (1) `request instanceof IDBRequest` — if not,
rejects with a `TypeError`; (2) whether the passed signal is already aborted
— if so, rejects with the signal's reason; otherwise it attaches the
success/error/abort listeners.  `validRequest` is whether the argument is an
`IDBRequest`, and `tx` its `transaction` property. -/
def handleIDBRequest (validRequest : Bool) (tx : Option Txn) (signal : Option Signal) :
    BridgeInit :=
  if ¬ validRequest then
    BridgeInit.immediate (Settled.rejectedWith (JSVal.exn "TypeError"))
  else if sigAborted signal then
    BridgeInit.immediate (Settled.rejectedWith (sigReason signal))
  else
    BridgeInit.subscribed (bridgeSubscribe tx signal)

/-- Events delivered to a subscribed `handleIDBRequest` call: the request's
`success` event carrying `target.result`, its `error` event carrying
`target.error`, or an abort of the externally passed signal with a reason. -/
inductive BridgeEv where
  | success : JSVal → BridgeEv
  | error : JSVal → BridgeEv
  | extAbort : JSVal → BridgeEv
deriving DecidableEq, Repr

/-- One event delivered to a subscribed `handleIDBRequest` call, transcribed
from the three listeners in src/idb.js lines 126-142:

* `success` (lines 126-129): `resolve(target.result); controller.abort()` —
  the controller abort detaches the remaining listeners; no transaction
  commit is issued.
* `error` (lines 131-135): `abortTransaction(target.transaction)`, then
  `controller.abort(target.error); reject(target.error)`.  If the engine
  abort throws, the exception escapes the listener before the rejection
  (only the fired once-listener has been removed).
* `extAbort` (lines 137-142): aborting the passed signal first aborts the
  composed signal, detaching the success/error listeners; the signal's
  `abort` event then runs `reject(target.reason); abortTransaction(target.reason)`
  — note the argument of `abortTransaction` is the abort reason (`TxArg.other`),
  not the request or its transaction, so the engine transaction is untouched. -/
def bridgeStep (st : BridgeState) : BridgeEv → BridgeState
  | BridgeEv.success v =>
      if st.sListener then
        { st with promise := settleOnce st.promise (Settled.resolved v)
                  controllerAborted := true
                  sListener := false, eListener := false, aListener := false }
      else st
  | BridgeEv.error e =>
      if st.eListener then
        match abortTransaction (TxArg.request st.tx) with
        | Except.ok r =>
            { st with tx := r.2
                      promise := settleOnce st.promise (Settled.rejectedWith e)
                      controllerAborted := true
                      sListener := false, eListener := false, aListener := false }
        | Except.error _ => { st with eListener := false }
      else st
  | BridgeEv.extAbort r =>
      if st.hasSignal && !st.sigIsAborted then
        let st1 := { st with sigIsAborted := true, sListener := false, eListener := false }
        if st.aListener then
          { st1 with promise := settleOnce st1.promise (Settled.rejectedWith r)
                     aListener := false }
        else st1
      else st

/-- Delivering a sequence of events to a subscribed call. -/
def bridgeRun (st : BridgeState) (evs : List BridgeEv) : BridgeState :=
  evs.foldl bridgeStep st

/-- The settlement of the promise returned by `handleIDBRequest` after the
given events have been delivered (`none` while still pending). -/
def initPromise (b : BridgeInit) (evs : List BridgeEv) : Option (Settled JSVal) :=
  match b with
  | BridgeInit.immediate s => some s
  | BridgeInit.subscribed st => (bridgeRun st evs).promise

/-- src/idb.js lines 321-328 (`putItem`): throws the abort reason when the
signal is already aborted; otherwise opens a fresh read-write transaction
and returns `handleIDBRequest(store.put(value, key))` — the options object,
and in particular the signal, is NOT forwarded to `handleIDBRequest`
(line 326), so the bridged request is subscribed with no signal and a later
abort of the caller's signal is invisible to it. -/
def putItem (signal : Option Signal) : BridgeInit :=
  if sigAborted signal then
    BridgeInit.immediate (Settled.rejectedWith (sigReason signal))
  else
    handleIDBRequest true (some (Txn.mk TxMode.readwrite TxState.active)) none

/-- Result of the synchronous entry checks of `putAllItems` (src/idb.js
lines 341-350): the async function throws (its promise rejects), delegates
the single item to `putItem`, returns `[]` without ever opening a
transaction, or proceeds to open one read-write transaction and issue the
batch.  Only the `single` and `batch` outcomes open a transaction. -/
inductive PutAllEntry where
  | rejected : JSVal → PutAllEntry
  | single : JSVal → PutAllEntry
  | resolvedEmpty : PutAllEntry
  | batch : List JSVal → PutAllEntry
deriving DecidableEq, Repr

/-- src/idb.js lines 341-350 (`putAllItems`), in the code's order of checks:
`!Array.isArray(items)` → `TypeError`; `items.length === 1` → delegate to
`putItem`; the signal is already aborted → throw `signal.reason`;
`items.length === 0` → return `[]`; otherwise run the batch.  `none` stands
for a non-array argument. -/
def putAllItemsEntry (items : Option (List JSVal)) (signal : Option Signal) : PutAllEntry :=
  match items with
  | none => PutAllEntry.rejected (JSVal.exn "TypeError")
  | some l =>
      if l.length = 1 then PutAllEntry.single (l.getD 0 JSVal.undef)
      else if sigAborted signal then PutAllEntry.rejected (sigReason signal)
      else if l.length = 0 then PutAllEntry.resolvedEmpty
      else PutAllEntry.batch l

/-- The per-item promise and request listeners of one batched `store.put`
request (src/idb.js lines 388-403): `result` is `promises[i]`, and
`listeners` whether the request's success/error listeners (registered with
the per-request `reqController.signal`) are still attached. -/
structure ItemSlot where
  result : Option (Settled JSVal)
  listeners : Bool
deriving DecidableEq, Repr

/-- Observable state of one `putAllItems` batch (src/idb.js lines 351-411):
the aggregate promise, the internal controller, the four listeners that are
registered with `controller.signal` — the transaction's `error`/`abort`/
`complete` listeners and the external signal's `abort` listener — the
external signal's flag, the shared read-write transaction, and one slot per
item. -/
structure BatchState where
  aggregate : Option (Settled (List JSVal))
  controllerAborted : Bool
  txErrorL : Bool
  txAbortL : Bool
  txCompleteL : Bool
  extAbortL : Bool
  sigIsAborted : Bool
  tx : Txn
  slots : List ItemSlot
deriving DecidableEq, Repr

/-- The call `controller.abort(...)` in `putAllItems`: detaches every listener that
was registered with `controller.signal`. -/
def killController (st : BatchState) : BatchState :=
  { st with controllerAborted := true, txErrorL := false, txAbortL := false,
            txCompleteL := false, extAbortL := false }

/-- The batch state right after the synchronous setup of `putAllItems`
for `n ≥ 2` items: all `n` put requests are issued in the same turn
(lines 384-405), the transaction and signal listeners are attached
(lines 359-382), and every per-item promise is pending. -/
def batchInit (n : Nat) (hasSignal : Bool) : BatchState :=
  { aggregate := none
    controllerAborted := false
    txErrorL := true, txAbortL := true, txCompleteL := true
    extAbortL := hasSignal
    sigIsAborted := false
    tx := Txn.mk TxMode.readwrite TxState.active
    slots := List.replicate n (ItemSlot.mk none true) }

/-- The combinator `Promise.all(promises)` over already-issued promises, observed once the
transaction completes: it rejects with the first (lowest-index) rejection
among the settled member promises, fulfils with the values in index order
when every member promise is fulfilled, and otherwise stays pending. -/
def promiseAll (ps : List (Option (Settled JSVal))) : Option (Settled (List JSVal)) :=
  match ps.find? (fun p => match p with
      | some (Settled.rejectedWith _) => true
      | _ => false) with
  | some (some (Settled.rejectedWith e)) => some (Settled.rejectedWith e)
  | _ =>
      if ps.all (fun p => match p with
          | some (Settled.resolved _) => true
          | _ => false) then
        some (Settled.resolved (ps.map (fun p => match p with
          | some (Settled.resolved v) => v
          | _ => JSVal.undef)))
      else none

/-- Events delivered to a running batch: `success`/`error` of the i-th put
request (the error event bubbles from the request to the transaction),
`abort`/`complete` fired on the transaction by the engine, and an abort of
the external signal. -/
inductive BatchEv where
  | reqSuccess : Nat → JSVal → BatchEv
  | reqError : Nat → JSVal → BatchEv
  | txAbortEv : JSVal → BatchEv
  | txCompleteEv : BatchEv
  | extAbort : JSVal → BatchEv
deriving DecidableEq, Repr

/-- One event delivered to a running batch, transcribed from the listeners
in src/idb.js lines 359-403:

* `reqSuccess i k` (lines 393-396): `resolve(target.result); reqController.abort()`.
* `reqError i e`: the error event is dispatched first at the request
  (lines 398-403): `reject(target.error); reqController.abort(...);
  controller.abort(target.error); transaction.abort()` — aborting the
  controller detaches the transaction's `error`/`abort`/`complete` listeners
  and the signal listener before the event can bubble or the abort event can
  fire.  It then bubbles to the transaction's own `error` listener
  (lines 359-363) only if that listener is still attached; that handler runs
  `controller.abort(target.error); reject(target.error); target.abort()`
  (the last call raises, `target` being the request, and is swallowed by the
  event loop).
* `txAbortEv e` (lines 365-368): the engine has aborted the transaction;
  if the `abort` listener is still attached, `controller.abort(target.error);
  reject(target.error)`.
* `txCompleteEv` (lines 370-374): the engine committed; if the `complete`
  listener is still attached, `Promise.all(promises).then(resolve, reject)`
  settles the aggregate accordingly (or never, if a member promise is still
  pending), then `controller.abort()`.
* `extAbort r` (lines 376-382): a first abort of the external signal; if its
  listener is still attached: `reject(target.reason); controller.abort(target.reason);
  transaction.abort()` (the engine call raising on a finished transaction is
  swallowed). -/
def batchStep (st : BatchState) : BatchEv → BatchState
  | BatchEv.reqSuccess i k =>
      match st.slots.get? i with
      | some slot =>
          if slot.listeners then
            { st with slots :=
                st.slots.set i (ItemSlot.mk (settleOnce slot.result (Settled.resolved k)) false) }
          else st
      | none => st
  | BatchEv.reqError i e =>
      let st1 :=
        match st.slots.get? i with
        | some slot =>
            if slot.listeners then
              let slots1 := st.slots.set i (ItemSlot.mk (settleOnce slot.result (Settled.rejectedWith e)) false)
              let st2 := killController { st with slots := slots1 }
              { st2 with tx := (idbAbort st2.tx).toOption.getD st2.tx }
            else st
        | none => st
      if st1.txErrorL then
        { (killController st1) with aggregate := settleOnce st1.aggregate (Settled.rejectedWith e) }
      else st1
  | BatchEv.txAbortEv e =>
      let st1 := { st with tx := { st.tx with state := TxState.aborted } }
      if st1.txAbortL then
        { (killController st1) with aggregate := settleOnce st1.aggregate (Settled.rejectedWith e) }
      else st1
  | BatchEv.txCompleteEv =>
      let st1 := { st with tx := { st.tx with state := TxState.committed } }
      if st1.txCompleteL then
        match promiseAll (st1.slots.map ItemSlot.result) with
        | some s => { (killController st1) with aggregate := settleOnce st1.aggregate s }
        | none => { st1 with txCompleteL := false }
      else st1
  | BatchEv.extAbort r =>
      if !st.sigIsAborted then
        let st1 := { st with sigIsAborted := true }
        if st1.extAbortL then
          let st2 := { (killController st1) with
            aggregate := settleOnce st1.aggregate (Settled.rejectedWith r) }
          { st2 with tx := (idbAbort st2.tx).toOption.getD st2.tx }
        else st1
      else st

/-- Delivering a sequence of events to a running batch. -/
def batchRun (st : BatchState) (evs : List BatchEv) : BatchState :=
  evs.foldl batchStep st

/-- Description of a batch state mid-way through an all-successful run:
the slot of item `i` is settled with `keys i` when `done i`, and still
pending otherwise; every other field is as right after setup.  Used to
state the invariant of the ordered-keys proof. -/
def successSlots (n : Nat) (keys : Nat → JSVal) (done : Nat → Bool) : List ItemSlot :=
  (List.range n).map (fun i =>
    if done i then ItemSlot.mk (some (Settled.resolved (keys i))) false
    else ItemSlot.mk none true)

/-- The batch state whose slots are `successSlots` and whose other fields
are as right after setup. -/
def successState (n : Nat) (hasSignal : Bool) (keys : Nat → JSVal) (done : Nat → Bool) :
    BatchState :=
  { batchInit n hasSignal with slots := successSlots n keys done }

/-- State of the `ReadableStream` driving `iterateObjectStore`: readable,
closed (exhausted or cancelled), or errored with a reason.  An errored or
closed stream never becomes readable again, and `controller.error` /
`controller.close` are effective only while the stream is readable. -/
inductive StreamState where
  | readable : StreamState
  | closed : StreamState
  | errored : JSVal → StreamState
deriving DecidableEq, Repr

/-- The call `controller.error(r)`: errors a readable stream, no-op otherwise. -/
def streamError (s : StreamState) (r : JSVal) : StreamState :=
  match s with
  | StreamState.readable => StreamState.errored r
  | _ => s

/-- Closing a readable stream, no-op otherwise. -/
def streamClose (s : StreamState) : StreamState :=
  match s with
  | StreamState.readable => StreamState.closed
  | _ => s

/-- Observable state of one `iterateObjectStore` scan (src/idb.js
lines 536-594): the stream state, the underlying transaction, how many
times `cursor.continue()` has been invoked, whether the listeners registered
with the composed signal `sig = AbortSignal.any([signal, abrt.signal])` are
still attached (`listeners`: the transaction's `abort`/`error` listeners and
the cursor request's `success`/`error` listeners), whether the external
signal's `abort` listener (registered with `abrt.signal`) is still attached,
the external signal's flag, the internal `abrt` controller, and whether a
surfaced row is waiting for the consumer's pull (`deferredPending`: the
success handler is suspended on `deferred.promise` and will call
`continue()` once the pull resolves it). -/
structure CursorState where
  stream : StreamState
  tx : Txn
  continues : Nat
  listeners : Bool
  extListener : Bool
  sigIsAborted : Bool
  abrtAborted : Bool
  deferredPending : Bool
deriving DecidableEq, Repr

/-- The call `abrt.abort(...)` in `iterateObjectStore`: detaches everything
registered with `abrt.signal` or with the composed signal. -/
def killAbrt (st : CursorState) : CursorState :=
  { st with abrtAborted := true, listeners := false, extListener := false }

/-- The cursor state right after `iterateObjectStore` has passed its entry
checks, opened the transaction in the requested mode and issued
`store.openCursor(query, direction)` (src/idb.js lines 536-583). -/
def cursorInit (mode : TxMode) (hasSignal : Bool) : CursorState :=
  { stream := StreamState.readable
    tx := Txn.mk mode TxState.active
    continues := 0
    listeners := true
    extListener := hasSignal
    sigIsAborted := false
    abrtAborted := false
    deferredPending := false }

/-- Events delivered to a running scan: a cursor `success` carrying a row,
a cursor `success` carrying null (exhausted), the stream machinery's pull,
a cursor request `error`, an `error`/`abort` event fired on the transaction,
an abort of the external signal, a cancellation by the consumer, and the
event loop going idle with no outstanding request (engine
auto-finalization). -/
inductive CursorEv where
  | rowSuccess : CursorEv
  | doneSuccess : CursorEv
  | pull : CursorEv
  | reqErrorEv : JSVal → CursorEv
  | txErrorEv : JSVal → CursorEv
  | txAbortEv : JSVal → CursorEv
  | extAbort : JSVal → CursorEv
  | cancel : JSVal → CursorEv
  | idle : CursorEv
deriving DecidableEq, Repr

/-- One event delivered to a running scan, transcribed from src/idb.js
lines 543-594:

* `rowSuccess` (lines 555-561): the success handler stores a fresh
  `deferred`, enqueues the row and awaits `deferred.promise`; `continue()`
  is issued only when a pull resolves it.
* `doneSuccess` (lines 562-565): `controller.close(); abrt.abort()`.
* `pull` (lines 585-589): invoked by the stream machinery only while the
  stream is readable and a row is awaited; resolving the deferred resumes
  the suspended success handler, which calls `target.result.continue()` —
  an engine call that raises (and is swallowed) when the transaction is no
  longer active.
* `reqErrorEv e` (lines 568-571) and `txErrorEv e` (lines 550-553):
  `controller.error(target.error); abrt.abort(target.error)`.
* `txAbortEv e` (lines 545-548): the engine aborted the transaction; if
  attached, `controller.error(target.error); abrt.abort(target.error)`.
* `extAbort r` (lines 573-582): a first abort of the external signal
  detaches the listeners registered with the composed signal; if the
  signal's own listener is attached it runs `controller.error(target.reason);
  abrt.abort(target.reason)`, and then aborts the transaction only when
  `transaction.mode !== 'readonly'` (the code comments "No need to abort if
  read-only").
* `cancel r` (lines 590-593): `abrt.abort(reason); transaction.abort()`
  (unconditional; an engine raise on a finished transaction rejects the
  cancel promise and is not observed further).
* `idle`: the engine auto-commits a still-active transaction once the turn
  ends with no outstanding request. -/
def cursorStep (st : CursorState) : CursorEv → CursorState
  | CursorEv.rowSuccess =>
      if st.listeners && decide (st.stream = StreamState.readable) then
        { st with deferredPending := true }
      else st
  | CursorEv.doneSuccess =>
      if st.listeners && decide (st.stream = StreamState.readable) then
        killAbrt { st with stream := streamClose st.stream, deferredPending := false }
      else st
  | CursorEv.pull =>
      if decide (st.stream = StreamState.readable) && st.deferredPending then
        if st.tx.state = TxState.active then
          { st with deferredPending := false, continues := st.continues + 1 }
        else { st with deferredPending := false }
      else st
  | CursorEv.reqErrorEv e =>
      if st.listeners then killAbrt { st with stream := streamError st.stream e }
      else st
  | CursorEv.txErrorEv e =>
      if st.listeners then killAbrt { st with stream := streamError st.stream e }
      else st
  | CursorEv.txAbortEv e =>
      let st1 := { st with tx := { st.tx with state := TxState.aborted } }
      if st1.listeners then killAbrt { st1 with stream := streamError st1.stream e }
      else st1
  | CursorEv.extAbort r =>
      if !st.sigIsAborted then
        let st1 := { st with sigIsAborted := true, listeners := false }
        if st.extListener then
          let st2 := killAbrt { st1 with stream := streamError st1.stream r }
          if st2.tx.mode ≠ TxMode.readonly then
            { st2 with tx := (idbAbort st2.tx).toOption.getD st2.tx }
          else st2
        else st1
      else st
  | CursorEv.cancel r =>
      let st1 := killAbrt { st with stream := streamClose st.stream }
      { st1 with tx := (idbAbort st1.tx).toOption.getD st1.tx }
  | CursorEv.idle =>
      if st.tx.state = TxState.active then
        { st with tx := { st.tx with state := TxState.committed } }
      else st

/-- Delivering a sequence of events to a running scan. -/
def cursorRun (st : CursorState) (evs : List CursorEv) : CursorState :=
  evs.foldl cursorStep st

/-- The event trace in which the consumer synchronously consumes `k` rows:
each surfaced row (`rowSuccess`) is acknowledged by a pull, which issues the
`continue()` for the next row. -/
def scanTrace : Nat → List CursorEv
  | 0 => []
  | Nat.succ k => scanTrace k ++ [CursorEv.rowSuccess, CursorEv.pull]

/-- src/idb.js lines 271-278 (`getItem`): throws the abort reason when the
signal is already aborted, otherwise resolves with
`await handleIDBRequest(store.get(key), { signal }) ?? fallback`.  This
models the successful-completion path of the bridged get request; an omitted
`fallback` option is the destructured value `undefined`. -/
def getItem (rows : List (JSVal × JSVal)) (key : JSVal) (signal : Option Signal)
    (fallback : JSVal) : Except JSVal JSVal :=
  if sigAborted signal then Except.error (sigReason signal)
  else Except.ok (nullishCoalesce (storeGet rows key) fallback)

/-! ## Helper lemmas -/

/-- A settled bridge promise never changes: every settlement in `bridgeStep`
goes through `settleOnce`, and the first settlement wins. -/
theorem bridgeStep_settled (st : BridgeState) (ev : BridgeEv) (s : Settled JSVal)
    (h : st.promise = some s) : (bridgeStep st ev).promise = some s := by
  cases ev <;> simp only [bridgeStep] <;> (repeat' split) <;> simp [settleOnce, h]

/-- Run form of `bridgeStep_settled`. -/
theorem bridgeRun_settled (st : BridgeState) (evs : List BridgeEv) (s : Settled JSVal)
    (h : st.promise = some s) : (bridgeRun st evs).promise = some s := by
  induction evs generalizing st with
  | nil => exact h
  | cons e es ih => exact ih _ (bridgeStep_settled st e s h)

/-- Once all three listeners of a bridged request are detached, further
events change neither the transaction nor the promise. -/
theorem bridgeStep_inert (st : BridgeState) (ev : BridgeEv)
    (hs : st.sListener = false) (he : st.eListener = false) (ha : st.aListener = false) :
    (bridgeStep st ev).tx = st.tx ∧ (bridgeStep st ev).promise = st.promise ∧
    (bridgeStep st ev).sListener = false ∧ (bridgeStep st ev).eListener = false ∧
    (bridgeStep st ev).aListener = false := by
  cases ev <;> simp only [bridgeStep] <;> (repeat' split) <;> simp_all

/-- Run form of `bridgeStep_inert`. -/
theorem bridgeRun_inert (st : BridgeState) (evs : List BridgeEv)
    (hs : st.sListener = false) (he : st.eListener = false) (ha : st.aListener = false) :
    (bridgeRun st evs).tx = st.tx ∧ (bridgeRun st evs).promise = st.promise := by
  induction evs generalizing st with
  | nil => exact ⟨rfl, rfl⟩
  | cons e es ih =>
      obtain ⟨h1, h2, h3, h4, h5⟩ := bridgeStep_inert st e hs he ha
      obtain ⟨g1, g2⟩ := ih (bridgeStep st e) h3 h4 h5
      exact ⟨g1.trans h1, g2.trans h2⟩

/-! ## Claims -/

/-- C1 counterexample: for a pending request bound to a read-write, active
transaction whose success event fires, the bridge resolves the promise but
issues no commit — the transaction is left active, so "finalized (committed)
iff the mode is not read-only" is false at this input. -/
theorem handleIDBRequest_success_commit_iff_cex :
    ¬ (((bridgeRun (bridgeSubscribe (some (Txn.mk TxMode.readwrite TxState.active)) none)
          [BridgeEv.success (JSVal.num 7)]).tx.map Txn.state = some TxState.committed)
        ↔ TxMode.readwrite ≠ TxMode.readonly) := by decide

/-- C1 (amended): when the success event of a valid pending request fires,
the returned promise resolves with the result value, and the owning
transaction is left untouched by the bridge whatever its mode — the success
listener performs no commit (`commitTransaction` is never invoked), leaving
finalization to the engine. -/
theorem handleIDBRequest_success_resolves (tx : Option Txn) (signal : Option Signal)
    (hsig : sigAborted signal = false) (v : JSVal) (rest : List BridgeEv) :
    handleIDBRequest true tx signal = BridgeInit.subscribed (bridgeSubscribe tx signal) ∧
    (bridgeRun (bridgeSubscribe tx signal) (BridgeEv.success v :: rest)).promise
        = some (Settled.resolved v) ∧
    (bridgeRun (bridgeSubscribe tx signal) (BridgeEv.success v :: rest)).tx = tx := by
  refine ⟨by simp [handleIDBRequest, hsig], ?_, ?_⟩ <;>
  · have hstep : bridgeStep (bridgeSubscribe tx signal) (BridgeEv.success v)
        = { promise := some (Settled.resolved v), hasSignal := (signal.isSome : Bool)
            sigIsAborted := false, sListener := false, eListener := false
            aListener := false, controllerAborted := true, tx := tx } := by
      simp [bridgeStep, bridgeSubscribe, settleOnce]
    have hrun : bridgeRun (bridgeSubscribe tx signal) (BridgeEv.success v :: rest)
        = bridgeRun (bridgeStep (bridgeSubscribe tx signal) (BridgeEv.success v)) rest := rfl
    rw [hrun, hstep]
    first
      | exact (bridgeRun_inert _ rest rfl rfl rfl).2.trans rfl
      | exact (bridgeRun_inert _ rest rfl rfl rfl).1.trans rfl

/-- C1 witness for `handleIDBRequest_success_resolves`. -/
theorem handleIDBRequest_success_resolves_witness :
    sigAborted none = false ∧
    (handleIDBRequest true (some (Txn.mk TxMode.readwrite TxState.active)) none
        = BridgeInit.subscribed
            (bridgeSubscribe (some (Txn.mk TxMode.readwrite TxState.active)) none) ∧
      (bridgeRun (bridgeSubscribe (some (Txn.mk TxMode.readwrite TxState.active)) none)
          [BridgeEv.success (JSVal.num 7)]).promise = some (Settled.resolved (JSVal.num 7)) ∧
      (bridgeRun (bridgeSubscribe (some (Txn.mk TxMode.readwrite TxState.active)) none)
          [BridgeEv.success (JSVal.num 7)]).tx
        = some (Txn.mk TxMode.readwrite TxState.active)) :=
  ⟨by decide,
    handleIDBRequest_success_resolves (some (Txn.mk TxMode.readwrite TxState.active)) none
      (by decide) (JSVal.num 7) []⟩

/-- C2: evaluation at the failing input.  A valid pending request is bound
to a read-write, active transaction and bridged with a fresh external
signal; the signal then aborts with reason `AbortError`, after which the
request's success event fires.  The promise rejects with the reason and the
later success is not acted upon, but the transaction is left active: the
abort listener passes `target.reason` — not the request's transaction — to
`abortTransaction`, which therefore does nothing. -/
theorem handleIDBRequest_extAbort_leaves_tx_active :
    bridgeRun (bridgeSubscribe (some (Txn.mk TxMode.readwrite TxState.active))
        (some (Signal.mk false JSVal.undef)))
        [BridgeEv.extAbort (JSVal.exn "AbortError"), BridgeEv.success (JSVal.num 1)]
      = { promise := some (Settled.rejectedWith (JSVal.exn "AbortError"))
          hasSignal := true, sigIsAborted := true, sListener := false, eListener := false
          aListener := false, controllerAborted := false
          tx := some (Txn.mk TxMode.readwrite TxState.active) } := by decide

/-- C7 counterexample: with a signal that is already aborted (reason
`AbortError`) and an argument that is not an `IDBRequest`, the bridge
rejects with the `TypeError` of the validity check, not with the signal's
abort reason — the validity check precedes the cancellation check. -/
theorem handleIDBRequest_order_cex :
    handleIDBRequest false none (some (Signal.mk true (JSVal.exn "AbortError")))
      = BridgeInit.immediate (Settled.rejectedWith (JSVal.exn "TypeError")) ∧
    Settled.rejectedWith (α := JSVal) (JSVal.exn "TypeError")
      ≠ Settled.rejectedWith (JSVal.exn "AbortError") := by decide

/-- C7 (amended): for a valid `IDBRequest` argument, an already-aborted
signal makes the bridge reject immediately with the signal's reason and
never subscribe to the request's events; for an invalid argument the
validity check comes first and the bridge rejects with a `TypeError`
whatever the signal's state. -/
theorem handleIDBRequest_already_aborted (tx : Option Txn) (s : Signal)
    (h : s.aborted = true) :
    handleIDBRequest true tx (some s) = BridgeInit.immediate (Settled.rejectedWith s.reason) ∧
    ∀ (tx2 : Option Txn) (sig2 : Option Signal),
      handleIDBRequest false tx2 sig2
        = BridgeInit.immediate (Settled.rejectedWith (JSVal.exn "TypeError")) := by
  constructor
  · simp [handleIDBRequest, sigAborted, sigReason, h]
  · intro tx2 sig2
    simp [handleIDBRequest]

/-- C7 witness for `handleIDBRequest_already_aborted`. -/
theorem handleIDBRequest_already_aborted_witness :
    (Signal.mk true (JSVal.exn "AbortError")).aborted = true ∧
    (handleIDBRequest true none (some (Signal.mk true (JSVal.exn "AbortError")))
        = BridgeInit.immediate
            (Settled.rejectedWith (Signal.mk true (JSVal.exn "AbortError")).reason) ∧
      ∀ (tx2 : Option Txn) (sig2 : Option Signal),
        handleIDBRequest false tx2 sig2
          = BridgeInit.immediate (Settled.rejectedWith (JSVal.exn "TypeError"))) :=
  ⟨by decide, handleIDBRequest_already_aborted none (Signal.mk true (JSVal.exn "AbortError"))
    (by decide)⟩

/-- C5 counterexample: called with an empty item array and a signal that is
already aborted (reason `AbortError`), `putAllItems` throws the abort reason
instead of resolving with the empty key array — the aborted-signal check
(line 346) precedes the `items.length === 0` check (line 348). -/
theorem putAllItems_empty_aborted_cex :
    putAllItemsEntry (some []) (some (Signal.mk true (JSVal.exn "AbortError")))
      = PutAllEntry.rejected (JSVal.exn "AbortError") ∧
    PutAllEntry.rejected (JSVal.exn "AbortError") ≠ PutAllEntry.resolvedEmpty := by decide

/-- C5 (amended): with an empty item array and an external signal that is
absent or not yet aborted, `putAllItems` resolves immediately with the empty
key array and opens no transaction; with an already-aborted signal it
instead rejects with the abort reason (still opening no transaction). -/
theorem putAllItems_empty (signal : Option Signal) (h : sigAborted signal = false) :
    putAllItemsEntry (some []) signal = PutAllEntry.resolvedEmpty ∧
    ∀ s : Signal, s.aborted = true →
      putAllItemsEntry (some []) (some s) = PutAllEntry.rejected s.reason := by
  constructor
  · simp [putAllItemsEntry, h]
  · intro s hs
    simp [putAllItemsEntry, sigAborted, sigReason, hs]

/-- C5 witness for `putAllItems_empty`. -/
theorem putAllItems_empty_witness :
    sigAborted none = false ∧
    (putAllItemsEntry (some []) none = PutAllEntry.resolvedEmpty ∧
      ∀ s : Signal, s.aborted = true →
        putAllItemsEntry (some []) (some s) = PutAllEntry.rejected s.reason) :=
  ⟨by decide, putAllItems_empty none (by decide)⟩

/-- C9 counterexample: on an already-terminal transaction whose mode is not
read-only, `commitTransaction` and `abortTransaction` reach the engine
calls `commit()` / `abort()`, which raise `InvalidStateError` on a finished
transaction — not a no-op. -/
theorem commitTransaction_terminal_raises_cex :
    commitTransaction (TxArg.txn (Txn.mk TxMode.readwrite TxState.committed))
      = Except.error (JSVal.exn "InvalidStateError") ∧
    abortTransaction (TxArg.txn (Txn.mk TxMode.readwrite TxState.aborted))
      = Except.error (JSVal.exn "InvalidStateError") := by decide

/-- C9 (amended): on an already-terminal transaction the helpers are a
no-op returning `false` when the mode is read-only (the mode guard fails
before any engine call); when the mode is not read-only they call the
engine's `commit()` / `abort()`, which raises `InvalidStateError`. -/
theorem commitTransaction_terminal (t : Txn) (hterm : t.state ≠ TxState.active) :
    (t.mode = TxMode.readonly →
      commitTransaction (TxArg.txn t) = Except.ok (false, some t) ∧
      abortTransaction (TxArg.txn t) = Except.ok (false, some t)) ∧
    (t.mode ≠ TxMode.readonly →
      commitTransaction (TxArg.txn t) = Except.error (JSVal.exn "InvalidStateError") ∧
      abortTransaction (TxArg.txn t) = Except.error (JSVal.exn "InvalidStateError")) := by
  constructor
  · intro hm
    simp [commitTransaction, abortTransaction, commitTransactionTxn, abortTransactionTxn, hm]
  · intro hm
    simp [commitTransaction, abortTransaction, commitTransactionTxn, abortTransactionTxn,
      hm, idbCommit, idbAbort, hterm, Except.map]

/-- C9 witness for `commitTransaction_terminal`. -/
theorem commitTransaction_terminal_witness :
    (Txn.mk TxMode.readwrite TxState.committed).state ≠ TxState.active ∧
    (((Txn.mk TxMode.readwrite TxState.committed).mode = TxMode.readonly →
      commitTransaction (TxArg.txn (Txn.mk TxMode.readwrite TxState.committed))
          = Except.ok (false, some (Txn.mk TxMode.readwrite TxState.committed)) ∧
      abortTransaction (TxArg.txn (Txn.mk TxMode.readwrite TxState.committed))
          = Except.ok (false, some (Txn.mk TxMode.readwrite TxState.committed))) ∧
    ((Txn.mk TxMode.readwrite TxState.committed).mode ≠ TxMode.readonly →
      commitTransaction (TxArg.txn (Txn.mk TxMode.readwrite TxState.committed))
          = Except.error (JSVal.exn "InvalidStateError") ∧
      abortTransaction (TxArg.txn (Txn.mk TxMode.readwrite TxState.committed))
          = Except.error (JSVal.exn "InvalidStateError"))) :=
  ⟨by decide, commitTransaction_terminal (Txn.mk TxMode.readwrite TxState.committed) (by decide)⟩

/-- C10: whenever the engine reports a nullish result — `undefined` for a
missing key, or a stored value that is `null` — `getItem` resolves with the
provided fallback, so a stored `null` is indistinguishable from an absent
key at this interface; with no fallback provided (the destructured option is
`undefined`), a missing key resolves to `undefined`. -/
theorem getItem_nullish_fallback (rows rows2 : List (JSVal × JSVal)) (key fb : JSVal)
    (h : nullish (storeGet rows key) = true) (h2 : nullish (storeGet rows2 key) = true) :
    getItem rows key none fb = Except.ok fb ∧
    getItem rows key none fb = getItem rows2 key none fb ∧
    getItem rows key none JSVal.undef = Except.ok JSVal.undef := by
  refine ⟨?_, ?_, ?_⟩ <;> simp [getItem, sigAborted, nullishCoalesce, h, h2]

/-- C10 witness for `getItem_nullish_fallback`: a store holding `null` at
key `1` and a store missing key `1` both resolve with the fallback. -/
theorem getItem_nullish_fallback_witness :
    nullish (storeGet [(JSVal.num 1, JSVal.null)] (JSVal.num 1)) = true ∧
    nullish (storeGet [] (JSVal.num 1)) = true ∧
    (getItem [(JSVal.num 1, JSVal.null)] (JSVal.num 1) none (JSVal.str "fallback")
        = Except.ok (JSVal.str "fallback") ∧
      getItem [(JSVal.num 1, JSVal.null)] (JSVal.num 1) none (JSVal.str "fallback")
        = getItem [] (JSVal.num 1) none (JSVal.str "fallback") ∧
      getItem [(JSVal.num 1, JSVal.null)] (JSVal.num 1) none JSVal.undef
        = Except.ok JSVal.undef) :=
  ⟨by decide, by decide,
    getItem_nullish_fallback [(JSVal.num 1, JSVal.null)] [] (JSVal.num 1) (JSVal.str "fallback")
      (by decide) (by decide)⟩

/-- A settled aggregate promise never changes: every settlement in
`batchStep` goes through `settleOnce`. -/
theorem batchStep_settled (st : BatchState) (ev : BatchEv) (s : Settled (List JSVal))
    (h : st.aggregate = some s) : (batchStep st ev).aggregate = some s := by
  cases ev <;> simp only [batchStep] <;> (repeat' split) <;>
    simp_all [settleOnce, killController]

/-- Run form of `batchStep_settled`. -/
theorem batchRun_settled (st : BatchState) (evs : List BatchEv) (s : Settled (List JSVal))
    (h : st.aggregate = some s) : (batchRun st evs).aggregate = some s := by
  induction evs generalizing st with
  | nil => exact h
  | cons e es ih => exact ih _ (batchStep_settled st e s h)

/-- Once the listeners registered with `controller.signal` — the
transaction's `error`/`abort`/`complete` listeners and the signal's `abort`
listener — are all detached, no later event can settle the aggregate
promise, and the listeners stay detached. -/
theorem batchStep_dead (st : BatchState) (ev : BatchEv)
    (h1 : st.txErrorL = false) (h2 : st.txAbortL = false)
    (h3 : st.txCompleteL = false) (h4 : st.extAbortL = false) :
    (batchStep st ev).aggregate = st.aggregate ∧
    (batchStep st ev).txErrorL = false ∧ (batchStep st ev).txAbortL = false ∧
    (batchStep st ev).txCompleteL = false ∧ (batchStep st ev).extAbortL = false := by
  cases ev with
  | reqSuccess i k =>
      simp only [batchStep]
      generalize st.slots.get? i = x
      rcases x with _ | slot
      · exact ⟨rfl, h1, h2, h3, h4⟩
      · by_cases hl : slot.listeners = true <;> simp [hl, h1, h2, h3, h4]
  | reqError i e =>
      simp only [batchStep]
      generalize st.slots.get? i = x
      rcases x with _ | slot
      · simp [h1, h2, h3, h4]
      · by_cases hl : slot.listeners = true <;> simp [hl, killController, h1, h2, h3, h4]
  | txAbortEv e => simp [batchStep, h1, h2, h3, h4]
  | txCompleteEv => simp [batchStep, h1, h2, h3, h4]
  | extAbort r =>
      by_cases hs : st.sigIsAborted = true <;> simp [batchStep, hs, h1, h2, h3, h4]

/-- Run form of `batchStep_dead`. -/
theorem batchRun_dead (st : BatchState) (evs : List BatchEv)
    (h1 : st.txErrorL = false) (h2 : st.txAbortL = false)
    (h3 : st.txCompleteL = false) (h4 : st.extAbortL = false) :
    (batchRun st evs).aggregate = st.aggregate := by
  induction evs generalizing st with
  | nil => rfl
  | cons e es ih =>
      obtain ⟨g0, g1, g2, g3, g4⟩ := batchStep_dead st e h1 h2 h3 h4
      exact (ih (batchStep st e) g1 g2 g3 g4).trans g0

/-- C3: evaluation at the failing input.  A batch of two items is running;
the write of item 0 fails with a `ConstraintError`.  The per-item error
handler aborts the transaction (so nothing is stored), but it has already
aborted the shared controller, detaching the transaction's
`error`/`abort`/`complete` listeners — so no later event, of any kind, can
ever settle the aggregate promise: the promise returned by `putAllItems`
hangs instead of rejecting with the operation's error. -/
theorem putAllItems_failure_hangs :
    (batchRun (batchInit 2 false) [BatchEv.reqError 0 (JSVal.exn "ConstraintError")]).tx.state
        = TxState.aborted ∧
    (batchRun (batchInit 2 false)
        [BatchEv.reqError 0 (JSVal.exn "ConstraintError")]).slots.map ItemSlot.result
        = [some (Settled.rejectedWith (JSVal.exn "ConstraintError")), none] ∧
    ∀ rest : List BatchEv,
      (batchRun (batchInit 2 false)
          (BatchEv.reqError 0 (JSVal.exn "ConstraintError") :: rest)).aggregate = none := by
  refine ⟨by decide, by decide, ?_⟩
  intro rest
  have hstep : batchRun (batchInit 2 false)
      (BatchEv.reqError 0 (JSVal.exn "ConstraintError") :: rest)
      = batchRun (batchStep (batchInit 2 false)
          (BatchEv.reqError 0 (JSVal.exn "ConstraintError"))) rest := rfl
  rw [hstep, batchRun_dead _ rest (by decide) (by decide) (by decide) (by decide)]
  decide

/-- The slots `successSlots` only read `done` below `n`. -/
theorem successSlots_congr (n : Nat) (keys : Nat → JSVal) (d1 d2 : Nat → Bool)
    (hd : ∀ i, i < n → d1 i = d2 i) :
    successSlots n keys d1 = successSlots n keys d2 := by
  unfold successSlots
  exact List.map_congr_left (fun i hi => by rw [hd i (List.mem_range.mp hi)])

/-- The state `successState` only reads `done` below `n`. -/
theorem successState_congr (n : Nat) (h : Bool) (keys : Nat → JSVal) (d1 d2 : Nat → Bool)
    (hd : ∀ i, i < n → d1 i = d2 i) :
    successState n h keys d1 = successState n h keys d2 := by
  unfold successState
  rw [successSlots_congr n keys d1 d2 hd]

/-- Right after setup, no slot is done. -/
theorem batchInit_eq_successState (n : Nat) (h : Bool) (keys : Nat → JSVal) :
    batchInit n h = successState n h keys (fun _ => false) := by
  simp [batchInit, successState, successSlots, List.map_const', List.length_range]

/-- Delivering the success of a still-pending item `j` settles slot `j`
with its key and detaches that request's listeners, leaving everything else
unchanged. -/
theorem batchStep_reqSuccess (n : Nat) (h : Bool) (keys : Nat → JSVal) (done : Nat → Bool)
    (j : Nat) (hj : j < n) (hdj : done j = false) :
    batchStep (successState n h keys done) (BatchEv.reqSuccess j (keys j))
      = successState n h keys (fun i => done i || decide (i = j)) := by
  have hget : (successState n h keys done).slots.get? j = some (ItemSlot.mk none true) := by
    unfold successState successSlots
    simp [List.get?_eq_getElem?, List.getElem?_map, List.getElem?_range hj, hdj]
  have hslots : (successSlots n keys done).set j
      (ItemSlot.mk (some (Settled.resolved (keys j))) false)
      = successSlots n keys (fun i => done i || decide (i = j)) := by
    apply List.ext_getElem?
    intro m
    by_cases hjm : j = m
    · subst hjm
      simp [List.getElem?_set, successSlots, List.getElem?_map, List.getElem?_range hj,
        List.length_map, List.length_range, hj]
    · by_cases hmn : m < n
      · have hmj : ¬ (m = j) := fun hh => hjm hh.symm
        simp [List.getElem?_set, hjm, successSlots, List.getElem?_map,
          List.getElem?_range hmn, hmj]
      · have hnone : (List.range n)[m]? = none := by
          simp [List.getElem?_eq_none, List.length_range, Nat.le_of_not_lt hmn]
        simp [List.getElem?_set, hjm, successSlots, List.getElem?_map, hnone]
  simp only [batchStep, hget, settleOnce]
  simp only [successState] at hslots ⊢
  simp [hslots, settleOnce]

/-- Delivering the successes of a set of distinct pending items, in any
order, settles exactly those slots with their keys. -/
theorem batchRun_successes (n : Nat) (h : Bool) (keys : Nat → JSVal) :
    ∀ (l : List Nat) (done : Nat → Bool), l.Nodup → (∀ j ∈ l, j < n) →
      (∀ j ∈ l, done j = false) →
      batchRun (successState n h keys done) (l.map fun i => BatchEv.reqSuccess i (keys i))
        = successState n h keys (fun i => done i || decide (i ∈ l)) := by
  intro l
  induction l with
  | nil =>
      intro done _ _ _
      exact successState_congr n h keys done _ (fun i _ => by simp)
  | cons j tl ih =>
      intro done hnd hlt hdf
      have hstep := batchStep_reqSuccess n h keys done j (hlt j (List.mem_cons_self j tl))
        (hdf j (List.mem_cons_self j tl))
      have hdone : ∀ x ∈ tl, (fun i => done i || decide (i = j)) x = false := by
        intro x hx
        have hxj : ¬ (x = j) := fun hh => (List.nodup_cons.mp hnd).1 (hh ▸ hx)
        simp [hdf x (List.mem_cons_of_mem j hx), hxj]
      rw [List.map_cons]
      show batchRun (batchStep (successState n h keys done) (BatchEv.reqSuccess j (keys j)))
          (tl.map fun i => BatchEv.reqSuccess i (keys i)) = _
      rw [hstep, ih (fun i => done i || decide (i = j)) (List.Nodup.of_cons hnd)
        (fun x hx => hlt x (List.mem_cons_of_mem j hx)) hdone]
      exact successState_congr n h keys _ _ (fun i _ => by
        by_cases h1 : i = j <;> by_cases h2 : i ∈ tl <;> simp [h1, h2, List.mem_cons])

/-- Applying `Promise.all` to all-fulfilled promises fulfils with the values in
order. -/
theorem promiseAll_resolved (l : List JSVal) :
    promiseAll (l.map fun v => some (Settled.resolved v)) = some (Settled.resolved l) := by
  unfold promiseAll
  have hf : (l.map fun v => some (Settled.resolved v)).find?
      (fun p => match p with | some (Settled.rejectedWith _) => true | _ => false) = none := by
    rw [List.find?_eq_none]
    intro x hx
    obtain ⟨v, hv, rfl⟩ := List.mem_map.mp hx
    simp
  have ha : (l.map fun v => some (Settled.resolved v)).all
      (fun p => match p with | some (Settled.resolved _) => true | _ => false) = true := by
    rw [List.all_eq_true]
    intro x hx
    obtain ⟨v, hv, rfl⟩ := List.mem_map.mp hx
    rfl
  have hid : ((fun p => match p with
      | some (Settled.resolved v) => v
      | _ => JSVal.undef) ∘ fun v => some (Settled.resolved v)) = fun v => v := by
    funext v; rfl
  simp only [hf, ha]
  simp [List.map_map, hid]

/-- The `complete` event on a batch whose slots are all settled with their
keys: the aggregate fulfils with the keys in index order and the
transaction is committed. -/
theorem batchStep_complete_all (n : Nat) (h : Bool) (keys : Nat → JSVal) :
    (batchStep (successState n h keys (fun _ => true)) BatchEv.txCompleteEv).aggregate
        = some (Settled.resolved ((List.range n).map keys)) ∧
    (batchStep (successState n h keys (fun _ => true)) BatchEv.txCompleteEv).tx.state
        = TxState.committed := by
  have hmap : (successSlots n keys (fun _ => true)).map ItemSlot.result
      = ((List.range n).map keys).map (fun v => some (Settled.resolved v)) := by
    simp [successSlots, List.map_map, Function.comp]
  have hpa : promiseAll ((successSlots n keys (fun _ => true)).map ItemSlot.result)
      = some (Settled.resolved ((List.range n).map keys)) := by
    rw [hmap]; exact promiseAll_resolved _
  constructor <;>
    simp [batchStep, successState, batchInit, hpa, settleOnce, killController]

/-- C4: for a batch of `n ≥ 2` items whose writes all succeed, with the
engine delivering the per-item success events in an arbitrary order, the
aggregate promise is still pending before the transaction's `complete`
event; on `complete` it resolves with the sequence of keys in input order
(slot `i` holds the key produced for item `i`), the transaction having
reached its committed state. -/
theorem putAllItems_ordered_keys (n : Nat) (hn : 2 ≤ n) (keys : Nat → JSVal)
    (order : List Nat) (hperm : order.Perm (List.range n)) (hasSignal : Bool) :
    (batchRun (batchInit n hasSignal)
        (order.map fun i => BatchEv.reqSuccess i (keys i))).aggregate = none ∧
    (batchRun (batchInit n hasSignal)
        ((order.map fun i => BatchEv.reqSuccess i (keys i)) ++ [BatchEv.txCompleteEv])).aggregate
        = some (Settled.resolved ((List.range n).map keys)) ∧
    (batchRun (batchInit n hasSignal)
        ((order.map fun i => BatchEv.reqSuccess i (keys i)) ++ [BatchEv.txCompleteEv])).tx.state
        = TxState.committed := by
  have hnd : order.Nodup := (hperm.nodup_iff).mpr (List.nodup_range n)
  have hmem : ∀ j ∈ order, j < n := fun j hj => List.mem_range.mp (hperm.mem_iff.mp hj)
  have hzero : ∀ j ∈ order, (fun _ : Nat => false) j = false := fun _ _ => rfl
  have hrun : batchRun (batchInit n hasSignal) (order.map fun i => BatchEv.reqSuccess i (keys i))
      = successState n hasSignal keys (fun _ => true) := by
    rw [batchInit_eq_successState n hasSignal keys,
      batchRun_successes n hasSignal keys order (fun _ => false) hnd hmem hzero]
    exact successState_congr n hasSignal keys _ _ (fun i hi => by
      simp [hperm.mem_iff, List.mem_range, hi])
  have happ : batchRun (batchInit n hasSignal)
      ((order.map fun i => BatchEv.reqSuccess i (keys i)) ++ [BatchEv.txCompleteEv])
      = batchStep (batchRun (batchInit n hasSignal)
          (order.map fun i => BatchEv.reqSuccess i (keys i))) BatchEv.txCompleteEv := by
    simp [batchRun, List.foldl_append]
  refine ⟨?_, ?_, ?_⟩
  · rw [hrun]; rfl
  · rw [happ, hrun]; exact (batchStep_complete_all n hasSignal keys).1
  · rw [happ, hrun]; exact (batchStep_complete_all n hasSignal keys).2

/-- C4 witness for `putAllItems_ordered_keys`: two items whose success
events arrive in reverse order still yield the keys in input order. -/
theorem putAllItems_ordered_keys_witness :
    2 ≤ 2 ∧ [1, 0].Perm (List.range 2) ∧
    ((batchRun (batchInit 2 false)
        ([1, 0].map fun i => BatchEv.reqSuccess i (JSVal.num i))).aggregate = none ∧
      (batchRun (batchInit 2 false)
          (([1, 0].map fun i => BatchEv.reqSuccess i (JSVal.num i))
            ++ [BatchEv.txCompleteEv])).aggregate
          = some (Settled.resolved ((List.range 2).map (fun i => JSVal.num i))) ∧
      (batchRun (batchInit 2 false)
          (([1, 0].map fun i => BatchEv.reqSuccess i (JSVal.num i))
            ++ [BatchEv.txCompleteEv])).tx.state
          = TxState.committed) :=
  ⟨by decide, by decide,
    putAllItems_ordered_keys 2 (by decide) (fun i => JSVal.num i) [1, 0] (by decide) false⟩

/-- After `k` synchronously consumed rows the scan is back to waiting for
the next cursor success, with `k` issued `continue()` calls and the
transaction still active. -/
theorem cursorRun_scanTrace (mode : TxMode) (k : Nat) :
    cursorRun (cursorInit mode true) (scanTrace k)
      = { cursorInit mode true with continues := k } := by
  induction k with
  | zero => rfl
  | succ k ih =>
      have happ : cursorRun (cursorInit mode true) (scanTrace (Nat.succ k))
          = cursorRun (cursorRun (cursorInit mode true) (scanTrace k))
              [CursorEv.rowSuccess, CursorEv.pull] := by
        simp [cursorRun, scanTrace, List.foldl_append]
      rw [happ, ih]
      simp [cursorRun, cursorStep, cursorInit]

/-- An errored cursor stream stays errored, and no further `continue()` is
ever issued (the stream machinery pulls only while readable). -/
theorem cursorStep_errored (st : CursorState) (r : JSVal) (ev : CursorEv)
    (h : st.stream = StreamState.errored r) :
    (cursorStep st ev).stream = StreamState.errored r ∧
    (cursorStep st ev).continues = st.continues := by
  cases ev <;> simp only [cursorStep] <;> (repeat' split) <;>
    simp_all [killAbrt, streamError, streamClose]

/-- Run form of `cursorStep_errored`. -/
theorem cursorRun_errored (st : CursorState) (evs : List CursorEv) (r : JSVal)
    (h : st.stream = StreamState.errored r) :
    (cursorRun st evs).stream = StreamState.errored r ∧
    (cursorRun st evs).continues = st.continues := by
  induction evs generalizing st with
  | nil => exact ⟨h, rfl⟩
  | cons e es ih =>
      obtain ⟨g1, g2⟩ := cursorStep_errored st r e h
      obtain ⟨f1, f2⟩ := ih (cursorStep st e) g1
      exact ⟨f1, f2.trans g2⟩

/-- An aborted cursor transaction stays aborted. -/
theorem cursorStep_aborted (st : CursorState) (ev : CursorEv)
    (h : st.tx.state = TxState.aborted) :
    (cursorStep st ev).tx.state = TxState.aborted := by
  cases ev <;> simp only [cursorStep] <;> (repeat' split) <;>
    simp_all [killAbrt, idbAbort, streamError, streamClose, Except.toOption, Option.getD]

/-- Run form of `cursorStep_aborted`. -/
theorem cursorRun_aborted (st : CursorState) (evs : List CursorEv)
    (h : st.tx.state = TxState.aborted) :
    (cursorRun st evs).tx.state = TxState.aborted := by
  induction evs generalizing st with
  | nil => exact h
  | cons e es ih => exact ih (cursorStep st e) (cursorStep_aborted st e h)

/-- The external signal aborting mid-scan: the stream errors with the
reason, every listener is detached, and the transaction is aborted exactly
when its mode is not read-only. -/
theorem cursorStep_extAbort_scan (mode : TxMode) (k : Nat) (r : JSVal) :
    cursorStep { cursorInit mode true with continues := k } (CursorEv.extAbort r)
      = { cursorInit mode true with
          continues := k, stream := StreamState.errored r, listeners := false,
          extListener := false, sigIsAborted := true, abrtAborted := true,
          tx := Txn.mk mode
            (if mode ≠ TxMode.readonly then TxState.aborted else TxState.active) } := by
  cases mode <;> rfl

/-- C8 counterexample: a read-only cursor (the default mode) that has
surfaced two rows and whose external signal then aborts: the sequence
errors with the abort reason, but the cursor deliberately does not abort a
read-only transaction ("No need to abort if read-only"), which the engine
then auto-commits — the transaction does not end aborted. -/
theorem iterateObjectStore_readonly_not_aborted_cex :
    (cursorRun (cursorInit TxMode.readonly true)
        (scanTrace 2 ++ [CursorEv.extAbort (JSVal.exn "AbortError"), CursorEv.idle])).stream
      = StreamState.errored (JSVal.exn "AbortError") ∧
    (cursorRun (cursorInit TxMode.readonly true)
        (scanTrace 2 ++ [CursorEv.extAbort (JSVal.exn "AbortError"), CursorEv.idle])).tx
      = Txn.mk TxMode.readonly TxState.committed ∧
    TxState.committed ≠ TxState.aborted := by decide

/-- C8 (amended): when the external signal aborts after `k` of the rows
have been surfaced and consumed, the cursor's sequence errors with the
abort reason and `continue()` is never invoked again (it stays at the `k`
calls already issued), whatever events follow; the underlying transaction
is aborted — and stays aborted — when its mode is writable, while a
read-only transaction is left untouched by the cursor (and is then
auto-finalized by the engine, not aborted). -/
theorem iterateObjectStore_abort_midscan (mode : TxMode) (k : Nat) (r : JSVal)
    (rest : List CursorEv) :
    (cursorRun (cursorInit mode true) (scanTrace k ++ CursorEv.extAbort r :: rest)).stream
        = StreamState.errored r ∧
    (cursorRun (cursorInit mode true) (scanTrace k ++ CursorEv.extAbort r :: rest)).continues
        = k ∧
    (mode ≠ TxMode.readonly →
      (cursorRun (cursorInit mode true) (scanTrace k ++ CursorEv.extAbort r :: rest)).tx.state
        = TxState.aborted) ∧
    (mode = TxMode.readonly →
      (cursorRun (cursorInit mode true) (scanTrace k ++ [CursorEv.extAbort r])).tx.state
        = TxState.active) := by
  have happ : cursorRun (cursorInit mode true) (scanTrace k ++ CursorEv.extAbort r :: rest)
      = cursorRun (cursorStep (cursorRun (cursorInit mode true) (scanTrace k))
          (CursorEv.extAbort r)) rest := by
    simp [cursorRun, List.foldl_append]
  refine ⟨?_, ?_, ?_, ?_⟩
  · rw [happ, cursorRun_scanTrace, cursorStep_extAbort_scan]
    exact (cursorRun_errored _ rest r rfl).1
  · rw [happ, cursorRun_scanTrace, cursorStep_extAbort_scan]
    exact (cursorRun_errored _ rest r rfl).2
  · intro hmode
    rw [happ, cursorRun_scanTrace, cursorStep_extAbort_scan]
    exact cursorRun_aborted _ rest (by simp [hmode])
  · intro hmode
    subst hmode
    have happ1 : cursorRun (cursorInit TxMode.readonly true)
        (scanTrace k ++ [CursorEv.extAbort r])
        = cursorStep (cursorRun (cursorInit TxMode.readonly true) (scanTrace k))
            (CursorEv.extAbort r) := by
      simp [cursorRun, List.foldl_append]
    rw [happ1, cursorRun_scanTrace, cursorStep_extAbort_scan]
    rfl

/-- C8 witness for `iterateObjectStore_abort_midscan`. -/
theorem iterateObjectStore_abort_midscan_witness :
    (cursorRun (cursorInit TxMode.readwrite true)
        (scanTrace 2 ++ CursorEv.extAbort (JSVal.exn "AbortError") :: [CursorEv.idle])).stream
        = StreamState.errored (JSVal.exn "AbortError") ∧
    (cursorRun (cursorInit TxMode.readwrite true)
        (scanTrace 2 ++ CursorEv.extAbort (JSVal.exn "AbortError") :: [CursorEv.idle])).continues
        = 2 ∧
    (TxMode.readwrite ≠ TxMode.readonly →
      (cursorRun (cursorInit TxMode.readwrite true)
          (scanTrace 2 ++ CursorEv.extAbort (JSVal.exn "AbortError") :: [CursorEv.idle])).tx.state
        = TxState.aborted) ∧
    (TxMode.readwrite = TxMode.readonly →
      (cursorRun (cursorInit TxMode.readwrite true)
          (scanTrace 2 ++ [CursorEv.extAbort (JSVal.exn "AbortError")])).tx.state
        = TxState.active) :=
  iterateObjectStore_abort_midscan TxMode.readwrite 2 (JSVal.exn "AbortError") [CursorEv.idle]

/-- C6 counterexample: `putAllItems` with a single item delegates to
`putItem`, which does not forward the signal to `handleIDBRequest`; an
abort of the external signal after issuance is therefore invisible, and
the promise resolves with the engine's key instead of failing with the
abort reason. -/
theorem putAllItems_single_signal_cex :
    putAllItemsEntry (some [JSVal.num 5]) (some (Signal.mk false JSVal.undef))
      = PutAllEntry.single (JSVal.num 5) ∧
    initPromise (putItem (some (Signal.mk false JSVal.undef)))
        [BridgeEv.extAbort (JSVal.exn "AbortError"), BridgeEv.success (JSVal.num 5)]
      = some (Settled.resolved (JSVal.num 5)) ∧
    some (Settled.resolved (JSVal.num 5))
      ≠ some (Settled.rejectedWith (α := JSVal) (JSVal.exn "AbortError")) := by decide

/-- C6 (amended): an external signal aborting after issuance and before
settlement propagates its reason — whatever events follow — for the bridge
`handleIDBRequest` when a signal is passed to it, for `putAllItems` batches
of two or more items, and for the `iterateObjectStore` stream; for a
single-item `putAllItems` (which delegates to `putItem`) the signal is
consulted only at call time: an already-aborted signal rejects immediately,
but a later abort is not observed. -/
theorem signal_abort_propagates (tx : Option Txn) (r : JSVal) (brest : List BridgeEv)
    (n : Nat) (hn : 2 ≤ n) (prest : List BatchEv) (mode : TxMode) (k : Nat)
    (crest : List CursorEv) (s : Signal) (hs : s.aborted = true) :
    (bridgeRun (bridgeSubscribe tx (some (Signal.mk false JSVal.undef)))
        (BridgeEv.extAbort r :: brest)).promise = some (Settled.rejectedWith r) ∧
    (batchRun (batchInit n true) (BatchEv.extAbort r :: prest)).aggregate
        = some (Settled.rejectedWith r) ∧
    (cursorRun (cursorInit mode true) (scanTrace k ++ CursorEv.extAbort r :: crest)).stream
        = StreamState.errored r ∧
    putItem (some s) = BridgeInit.immediate (Settled.rejectedWith s.reason) := by
  refine ⟨?_, ?_, ?_, ?_⟩
  · have hstep : (bridgeStep (bridgeSubscribe tx (some (Signal.mk false JSVal.undef)))
        (BridgeEv.extAbort r)).promise = some (Settled.rejectedWith r) := by
      simp [bridgeStep, bridgeSubscribe, settleOnce]
    exact bridgeRun_settled _ brest _ hstep
  · have hstep : (batchStep (batchInit n true) (BatchEv.extAbort r)).aggregate
        = some (Settled.rejectedWith r) := by
      simp [batchStep, batchInit, settleOnce, killController]
    exact batchRun_settled _ prest _ hstep
  · have happ : cursorRun (cursorInit mode true) (scanTrace k ++ CursorEv.extAbort r :: crest)
        = cursorRun (cursorStep (cursorRun (cursorInit mode true) (scanTrace k))
            (CursorEv.extAbort r)) crest := by
      simp [cursorRun, List.foldl_append]
    rw [happ, cursorRun_scanTrace, cursorStep_extAbort_scan]
    exact (cursorRun_errored _ crest r rfl).1
  · simp [putItem, sigAborted, sigReason, hs]

/-- C6 witness for `signal_abort_propagates`. -/
theorem signal_abort_propagates_witness :
    2 ≤ 2 ∧ (Signal.mk true (JSVal.exn "AbortError")).aborted = true ∧
    ((bridgeRun (bridgeSubscribe none (some (Signal.mk false JSVal.undef)))
        (BridgeEv.extAbort (JSVal.exn "AbortError") :: [])).promise
        = some (Settled.rejectedWith (JSVal.exn "AbortError")) ∧
      (batchRun (batchInit 2 true) (BatchEv.extAbort (JSVal.exn "AbortError") :: [])).aggregate
        = some (Settled.rejectedWith (JSVal.exn "AbortError")) ∧
      (cursorRun (cursorInit TxMode.readonly true)
          (scanTrace 1 ++ CursorEv.extAbort (JSVal.exn "AbortError") :: [])).stream
        = StreamState.errored (JSVal.exn "AbortError") ∧
      putItem (some (Signal.mk true (JSVal.exn "AbortError")))
        = BridgeInit.immediate
            (Settled.rejectedWith (Signal.mk true (JSVal.exn "AbortError")).reason)) :=
  ⟨by decide, by decide,
    signal_abort_propagates none (JSVal.exn "AbortError") [] 2 (by decide) []
      TxMode.readonly 1 [] (Signal.mk true (JSVal.exn "AbortError")) (by decide)⟩

end AegisIdb
